import Mathlib

/-!
Shallow embedding of the ansible-edgeswitch modules
(`edgeswitch_vlan.py`, `edgeswitch_voice.py`, `edgeswitch_interface.py`).

Modelling conventions:
* Python dicts (`ports`, `interfaces`, `interfaces_cmds`) are association
  lists `List (String × α)`; assignment keeps the position of an existing
  key and otherwise appends, matching insertion-ordered Python dicts.
* `re.search` on interface tokens is modelled as an exact-shape parse of
  the token (`group/idx` or `group/idxA-group/idxB` with decimal digits);
  the claims only concern tokens of exactly these shapes or `all`.
* `module.fail_json` and an uncaught Python `KeyError` are modelled as
  `Except.error` so the surrounding pipeline aborts.
* vlan ids in `want` are the already-stringified values the modules
  compare with (`str(vlan_id)`).
-/

/-- Python truthiness of an optional string (`None` and `""` are falsy). -/
def truthyO : Option String → Bool
  | none => false
  | some s => s ≠ ""

/-- Dict read: first binding of the key, if any. -/
def lookupA {α : Type} : List (String × α) → String → Option α
  | [], _ => none
  | (k', v) :: rest, k => if k' = k then some v else lookupA rest k

/-- Dict assignment `d[k] = v`: update in place if present, else append. -/
def setKey {α : Type} : List (String × α) → String → α → List (String × α)
  | [], k, v => [(k, v)]
  | (k', v') :: rest, k, v =>
    if k' = k then (k, v) :: rest else (k', v') :: setKey rest k v

/-- `interfaces_cmds` update: fetch-or-create the entry and extend its list
(`edgeswitch_vlan.py` lines 229-233 followed by the appends). -/
def addCmds : List (String × List String) → String → List String → List (String × List String)
  | [], k, cs => [(k, cs)]
  | (k', cs') :: rest, k, cs =>
    if k' = k then (k', cs' ++ cs) :: rest else (k', cs') :: addCmds rest k cs

/-- Split a character list on a separator character (the semantics of
Python `str.split` with a one-character separator). -/
def splitOnChar (c : Char) : List Char → List (List Char)
  | [] => [[]]
  | a :: as =>
    match splitOnChar c as, decide (a = c) with
    | r, true => [] :: r
    | [], false => [[a]]
    | h :: t, false => (a :: h) :: t

/-- Read a non-empty run of decimal digits as a number (Python `int`). -/
def digitsToNat? (l : List Char) : Option Nat :=
  if l ≠ [] && l.all Char.isDigit then
    some (l.foldl (fun n c => n * 10 + (c.toNat - 48)) 0)
  else none

/-- Parse `group/idx` where both parts are decimal digit runs
(the `(\d+)\/(\d+)` pattern, taken as a whole-token match). -/
def parseIfacePart (s : String) : Option (String × Nat) :=
  match splitOnChar '/' s.data with
  | [g, i] =>
    if g ≠ [] && g.all Char.isDigit then
      match digitsToNat? i with
      | some n => some (String.mk g, n)
      | none => none
    else none
  | _ => none

/-- Parse `groupA/idxA-groupB/idxB`
(the `(\d+)\/(\d+)-(\d+)\/(\d+)` pattern, taken as a whole-token match). -/
def parseRange (s : String) : Option (String × Nat × String × Nat) :=
  match splitOnChar '-' s.data with
  | [a, b] =>
    match parseIfacePart (String.mk a), parseIfacePart (String.mk b) with
    | some (g1, i1), some (g2, i2) => some (g1, i1, g2, i2)
    | _, _ => none
  | _ => none

/-- The keys a range expands to:
`'{0}/{1}'.format(match.group(1), x)` for `x in range(i1, i2 + 1)`. -/
def rangeKeys (g : String) (i1 i2 : Nat) : List String :=
  (List.range (i2 + 1 - i1)).map (fun k => g ++ "/" ++ toString (i1 + k))

/-! ## edgeswitch_vlan.py -/

/-- One desired VLAN record (`want` entry). -/
structure VlanWant where
  vlan_id : String
  name : Option String
  state : String
  auto_tag : Bool
  auto_untag : Bool
  auto_exclude : Bool
  tagged_interfaces : Option (List String)
  untagged_interfaces : Option (List String)
  excluded_interfaces : Option (List String)

/-- One observed VLAN record (from `parse_vlan_brief`). -/
structure VlanHave where
  vlan_id : String
  name : String

/-- `search_obj_in_list` over the observed list. -/
def searchVlanHave (vlan_id : String) (lst : List VlanHave) : Option VlanHave :=
  lst.find? (fun o => o.vlan_id = vlan_id)

/-- `search_obj_in_list` over the desired list (the purge loop). -/
def searchVlanWant (vlan_id : String) (lst : List VlanWant) : Option VlanWant :=
  lst.find? (fun o => o.vlan_id = vlan_id)

/-- Commands contributed by one `want` entry in `map_vlans_to_commands`
(lines 150-169). -/
def vlanWantCmds (w : VlanWant) (hve : List VlanHave) : List String :=
  let obj_in_have := searchVlanHave w.vlan_id hve
  if w.state = "absent" then
    match obj_in_have with
    | some _ => ["no vlan " ++ w.vlan_id]
    | none => []
  else if w.state = "present" then
    match obj_in_have with
    | none =>
      ("vlan " ++ w.vlan_id) ::
        (match w.name with
         | some n =>
           if n ≠ "" then ["vlan name " ++ w.vlan_id ++ " \"" ++ n ++ "\""] else []
         | none => [])
    | some o =>
      match w.name with
      | some n =>
        if n ≠ "" then
          (if n ≠ o.name then ["vlan name " ++ w.vlan_id ++ " \"" ++ n ++ "\""] else [])
        else []
      | none => []
  else []

/-- The purge loop of `map_vlans_to_commands` (lines 171-176). -/
def vlanPurgeCmds (want : List VlanWant) (hve : List VlanHave) : List String :=
  (hve.filter (fun h => (searchVlanWant h.vlan_id want).isNone && h.vlan_id ≠ "1")).map
    (fun h => "no vlan " ++ h.vlan_id)

/-- Body of `map_vlans_to_commands` before the prologue/epilogue wrapping. -/
def mapVlansBody (want : List VlanWant) (hve : List VlanHave) (purge : Bool) : List String :=
  (want.foldl (fun acc w => acc ++ vlanWantCmds w hve) []) ++
    (if purge then vlanPurgeCmds want hve else [])

/-- `map_vlans_to_commands` (lines 145-182). -/
def mapVlansToCommands (want : List VlanWant) (hve : List VlanHave) (purge : Bool) : List String :=
  let commands := mapVlansBody want hve purge
  if commands = [] then [] else "vlan database" :: commands ++ ["exit"]

/-- Observed per-port switchport state (from `parse_interfaces_switchport`). -/
structure Port where
  pvid_mode : String
  untagged_vlans : List String
  tagged_vlans : List String
  forbidden_vlans : List String

/-- The three membership actions assigned to interfaces
(the string values `'tag'`, `'untag'`, `'exclude'`). -/
inductive MAction where
  | tag
  | untag
  | exclude
deriving DecidableEq, Repr

/-- `set_interfaces` (lines 186-194): apply explicit interface tokens,
expanding ranges, on top of the accumulated `interfaces` dict. -/
def setInterfaces (param : Option (List String)) (interfaces : List (String × MAction))
    (action : MAction) : List (String × MAction) :=
  match param with
  | none => interfaces
  | some toks =>
    if toks = [] then interfaces
    else
      toks.foldl (fun acc i =>
        match parseRange i with
        | some (g1, i1, _g2, i2) =>
          (rangeKeys g1 i1 i2).foldl (fun a k => setKey a k action) acc
        | none => setKey acc i action) interfaces

/-- The `auto_tag` / `auto_exclude` / `auto_untag` default pass over all
observed ports (lines 215-222). -/
def autoInterfaces (w : VlanWant) (ports : List (String × Port)) : List (String × MAction) :=
  ports.foldl (fun acc kv =>
    if w.auto_tag then setKey acc kv.1 .tag
    else if w.auto_exclude then
      if ¬ kv.2.forbidden_vlans.contains w.vlan_id then setKey acc kv.1 .exclude else acc
    else if w.auto_untag then setKey acc kv.1 .untag
    else acc) []

/-- Full interface-action resolution for one `want` entry: auto defaults,
then tagged, untagged, excluded overrides in that order (lines 215-226). -/
def resolveInterfaces (w : VlanWant) (ports : List (String × Port)) : List (String × MAction) :=
  setInterfaces w.excluded_interfaces
    (setInterfaces w.untagged_interfaces
      (setInterfaces w.tagged_interfaces (autoInterfaces w ports) .tag) .untag) .exclude

/-- Sub-commands for one (interface, action) pair, with the idempotence
guards (lines 236-247). -/
def interfaceCmds (vlan_id : String) (t : MAction) (port : Port) : List String :=
  match t with
  | .exclude =>
    if ¬ port.forbidden_vlans.contains vlan_id then
      ["vlan participation exclude " ++ vlan_id, "no vlan tagging " ++ vlan_id]
    else []
  | .untag =>
    if ¬ port.untagged_vlans.contains vlan_id || vlan_id ≠ port.pvid_mode then
      ["vlan pvid " ++ vlan_id, "vlan participation include " ++ vlan_id]
    else []
  | .tag =>
    if ¬ port.tagged_vlans.contains vlan_id then
      ["vlan participation include " ++ vlan_id, "vlan tagging " ++ vlan_id]
    else []

/-- Accumulate one `want` entry into `interfaces_cmds` (lines 201-247);
`ports[i]` on an unknown interface is the uncaught `KeyError`. -/
def processWant (ports : List (String × Port)) (acc : List (String × List String))
    (w : VlanWant) : Except String (List (String × List String)) :=
  if w.state ≠ "present" then .ok acc
  else
    (resolveInterfaces w ports).foldlM (fun a it =>
      match lookupA ports it.1 with
      | none => .error ("KeyError: " ++ it.1)
      | some port => .ok (addCmds a it.1 (interfaceCmds w.vlan_id it.2 port))) acc

/-- Code-point lexicographic comparison of character lists: how Python
compares the `str` dict keys in `sorted(...)`. -/
def charListLe : List Char → List Char → Bool
  | [], _ => true
  | _ :: _, [] => false
  | a :: as, b :: bs => if a < b then true else if b < a then false else charListLe as bs

/-- Python string `<=` (code-point lexicographic). -/
def strLe (a b : String) : Bool := charListLe a.data b.data

/-- `sorted(interfaces_cmds.items())`: keys are distinct, so sorting the
pairs by key lexicographically is exactly Python's `sorted`. -/
def sortByKey (m : List (String × List String)) : List (String × List String) :=
  List.insertionSort (fun p q => strLe p.1 q.1 = true) m

/-- The emission loop of `map_interfaces_to_commands` (lines 249-252):
sorted order, headers only for non-empty command lists. -/
def emitInterfaces (m : List (String × List String)) : List String :=
  (sortByKey m).foldl
    (fun acc p => if p.2.length > 0 then acc ++ ("interface " ++ p.1) :: p.2 else acc) []

/-- `map_interfaces_to_commands` (lines 185-254). -/
def mapInterfacesToCommands (want : List VlanWant) (ports : List (String × Port)) :
    Except String (List String) :=
  (want.foldlM (processWant ports) []).map emitInterfaces

/-- `checkTok`: validation of one interface token in
`check_parmams_interface` (lines 300-310), with the source's message text. -/
def checkTok (i : String) : Except String Unit :=
  match parseRange i with
  | some (g1, _, g3, _) =>
    if g1 ≠ g3 then .error ("interface range must be withing same group: " ++ i)
    else .ok ()
  | none =>
    match parseIfacePart i with
    | some _ => .ok ()
    | none => if i ≠ "all" then .error ("wrong interface format: " ++ i) else .ok ()

/-- `check_parmams_interface` over one optional interface list. -/
def checkParamsInterface (l : Option (List String)) : Except String Unit :=
  match l with
  | none => .ok ()
  | some toks => toks.forM checkTok

/-- The counter `c` of `check_params` (lines 317-325): how many of the
three auto flags are set. -/
def countAuto (w : VlanWant) : Nat :=
  (if w.auto_tag then 1 else 0) + (if w.auto_untag then 1 else 0) +
    (if w.auto_exclude then 1 else 0)

/-- Per-entry part of `check_params` (lines 312-333). -/
def checkOne (w : VlanWant) : Except String Unit :=
  if countAuto w > 1 then
    .error "parameters are mutually exclusive: auto_tag, auto_untag, auto_exclude"
  else do
    checkParamsInterface w.tagged_interfaces
    checkParamsInterface w.untagged_interfaces
    checkParamsInterface w.excluded_interfaces

/-- `check_params` (lines 299-333). -/
def checkParams (want : List VlanWant) : Except String Unit :=
  want.forM checkOne

/-- The command-producing pipeline of `main` (lines 369-390):
validation first, then the vlan-database phase, then the interface phase,
concatenated into `result['commands']`. -/
def runVlanModule (want : List VlanWant) (hve : List VlanHave)
    (ports : List (String × Port)) (purge : Bool) : Except String (List String) := do
  checkParams want
  let c2 ← mapInterfacesToCommands want ports
  pure (mapVlansToCommands want hve purge ++ c2)

/-! ## edgeswitch_voice.py -/

/-- Observed voice/LLDP state of one port (from `map_config_to_obj`). -/
structure VoicePort where
  voice_vlan : String
  voice_dscp : String
  lldp : List String

/-- One desired voice record. `vlan_id` is the already-stringified
`str(w['vlan_id'])` (so a missing vlan id is the string `"None"`); `dscp`
and `lldp` are modelled as the supplied values (a `None` dscp or lldp,
which would crash the Python code, is outside the claims). -/
structure VoiceWant where
  vlan_id : String
  dscp : String
  interfaces : List String
  lldp : List String
  state : String

/-- `map_to_commands_interface` (`edgeswitch_voice.py` lines 93-113). -/
def mapToCommandsInterface (vlan_id dscp : String) (lldp : List String)
    (state : String) (port : VoicePort) : List String :=
  if state = "present" then
    (if port.voice_vlan ≠ vlan_id then ["voice vlan \x7b\x7d" ++ vlan_id] else []) ++
    (if port.voice_dscp ≠ dscp then ["voice vlan dscp " ++ dscp] else []) ++
    (lldp.filter (fun t => ¬ port.lldp.contains t)).map (fun t => "lldp " ++ t)
  else if state = "absent" then
    (if port.voice_vlan ≠ "no" then ["no voice vlan"] else []) ++
    (if port.voice_dscp ≠ "no" then ["no voice vlan dscp"] else [])
  else []

/-- Parse the voice range pattern `0\/(\d+)-0\/(\d+)` (both groups are the
literal `0`), taken as a whole-token match. -/
def parseVoiceRange (s : String) : Option (Nat × Nat) :=
  match parseRange s with
  | some (g1, i1, g2, i2) => if g1 = "0" && g2 = "0" then some (i1, i2) else none
  | _ => none

/-- Python `str.startswith`. -/
def strStartsWith (s pfx : String) : Bool := pfx.data.isPrefixOf s.data

/-- The wildcard branch of the interface loop (`edgeswitch_voice.py`
lines 131-137): only keys starting with `0/` are taken. -/
def voiceAll (vlan_id dscp : String) (lldp : List String) (state : String)
    (ports : List (String × VoicePort)) (acc : List (String × List String)) :
    List (String × List String) :=
  ports.foldl (fun a kv =>
    if strStartsWith kv.1 "0/" then
      setKey a kv.1 (mapToCommandsInterface vlan_id dscp lldp state kv.2)
    else a) acc

/-- One iteration of the interface loop of `map_to_commands`
(lines 130-148); `ports[...]` on an unknown key is the uncaught `KeyError`. -/
def voiceProcessIface (vlan_id dscp : String) (lldp : List String) (state : String)
    (ports : List (String × VoicePort)) (acc : List (String × List String))
    (i : String) : Except String (List (String × List String)) :=
  if i = "all" then
    .ok (voiceAll vlan_id dscp lldp state ports acc)
  else
    match parseVoiceRange i with
    | some (x1, x2) =>
      (List.range (x2 + 1 - x1)).foldlM (fun a k =>
        let key := "0/" ++ toString (x1 + k)
        match lookupA ports key with
        | none => .error ("KeyError: " ++ key)
        | some port =>
          .ok (setKey a key (mapToCommandsInterface vlan_id dscp lldp state port))) acc
    | none =>
      match lookupA ports i with
      | none => .error ("KeyError: " ++ i)
      | some port =>
        .ok (setKey acc i (mapToCommandsInterface vlan_id dscp lldp state port))

/-- The emission loop of `map_to_commands` (lines 150-153): the
accumulator is walked in its own (insertion) order, no sorting. -/
def voiceEmit (acc : List (String × List String)) (commands : List String) : List String :=
  acc.foldl (fun cs p => if p.2 ≠ [] then cs ++ ("interface " ++ p.1) :: p.2 else cs)
    commands

/-- `map_to_commands` (`edgeswitch_voice.py` lines 116-155). -/
def voiceMapToCommands (want : List VoiceWant) (ports : List (String × VoicePort)) :
    Except String (List String) :=
  want.foldlM (fun commands w =>
    if w.state = "present" && w.vlan_id = "None" then
      .error "state is 'present' but the following is missing: vlan_id"
    else do
      let acc ← w.interfaces.foldlM
        (voiceProcessIface w.vlan_id w.dscp w.lldp w.state ports) []
      pure (voiceEmit acc commands)) []

/-! ## edgeswitch_interface.py -/

/-- One desired interface record (`want` entry after `map_params_to_obj`);
`disable` is present only when `enabled` was supplied. -/
structure IntfWant where
  name : String
  speed : Option String
  description : Option String
  mtu : Option String
  disable : Option Bool

/-- One observed interface record (from `map_config_to_obj`). -/
structure IntfHave where
  name : String
  description : Option String
  speed : Option String
  mtu : Option String
  disable : Bool

/-- `search_obj_in_list` (`edgeswitch_interface.py` lines 136-141). -/
def searchIntf (name : String) (lst : List IntfHave) : Option IntfHave :=
  lst.find? (fun o => o.name = name)

/-- `'{0}'.format(x)` on an optional string (`None` prints as `"None"`). -/
def fmtOpt : Option String → String
  | none => "None"
  | some s => s

/-- Per-entry sub-commands of `map_obj_to_commands` (lines 223-242):
field order mtu, description, speed, disable. `orc` is the
`get_running_mtu` live read-back. -/
def intfCmds (w : IntfWant) (o : IntfHave) (orc : String → Option String) : List String :=
  let running_mtu := if truthyO w.mtu && ¬ truthyO o.mtu then orc w.name else o.mtu
  (if w.mtu ≠ running_mtu then ["mtu " ++ fmtOpt w.mtu] else []) ++
  (if truthyO w.description then
    (if w.description ≠ o.description then
      ["description \x27" ++ fmtOpt w.description ++ "\x27"] else [])
   else if truthyO o.description then ["no description"] else []) ++
  (match w.speed with
   | some s => if s ≠ "" && some s ≠ o.speed then ["speed " ++ s] else []
   | none => []) ++
  (match w.disable with
   | some b => if b ≠ o.disable then [if b then "shutdown" else "no shutdown"] else []
   | none => [])

/-- `map_obj_to_commands` (`edgeswitch_interface.py` lines 207-248),
returning `(commands, warnings)`. -/
def mapObjToCommands (want : List IntfWant) (hve : List IntfHave)
    (orc : String → Option String) : List String × List String :=
  match want with
  | [] => ([], [])
  | w :: rest =>
    let r := mapObjToCommands rest hve orc
    match searchIntf w.name hve with
    | none => (r.1, ("interface " ++ w.name ++ " does not exist on target") :: r.2)
    | some o =>
      let cmds := intfCmds w o orc
      (if cmds.length > 0 then ("interface " ++ w.name) :: cmds ++ r.1 else r.1, r.2)

/-! ## General helper lemmas -/

theorem append_ne_append {p q : String} {cp cq : Char} {rp rq : List Char}
    (hp : p.data = cp :: rp) (hq : q.data = cq :: rq) (hne : cp ≠ cq) (a b : String) :
    p ++ a ≠ q ++ b := by
  intro h
  have hd := congrArg String.data h
  rw [String.data_append, String.data_append, hp, hq] at hd
  exact hne (by injection hd)

theorem append_ne_lit {p q : String} {cp cq : Char} {rp rq : List Char}
    (hp : p.data = cp :: rp) (hq : q.data = cq :: rq) (hne : cp ≠ cq) (a : String) :
    p ++ a ≠ q := by
  intro h
  have h2 := append_ne_append hp hq hne a ""
  rw [String.append_empty] at h2
  exact h2 h

theorem append_left_cancel {p a b : String} (h : p ++ a = p ++ b) : a = b := by
  have hd := congrArg String.data h
  rw [String.data_append, String.data_append] at hd
  exact String.ext (List.append_cancel_left hd)

/-! ## C1 -/

/-- C1, counterexample: with `want = [{vlan_id: 1, state: absent}]` and
`have = [{vlan_id: 1}]` the code emits
`["vlan database", "no vlan 1", "exit"]`, not the empty sequence the claim
asserts; in particular the delete command for vlan 1 is emitted. -/
theorem C1_counterexample :
    mapVlansToCommands [⟨"1", none, "absent", false, false, false, none, none, none⟩]
        [⟨"1", "default"⟩] false = ["vlan database", "no vlan 1", "exit"] ∧
    "no vlan 1" ∈ mapVlansToCommands
        [⟨"1", none, "absent", false, false, false, none, none, none⟩]
        [⟨"1", "default"⟩] false :=
  ⟨rfl, by decide⟩

/-- C1, amended: an explicit `state=absent` request whose vlan id is
observed always emits the delete command, vlan 1 included; only the purge
loop exempts vlan 1 from deletion. -/
theorem C1_absent_request_deletes :
    (∀ (v : String) (hve : List VlanHave), (searchVlanHave v hve).isSome = true →
      ("no vlan " ++ v) ∈
        mapVlansToCommands [⟨v, none, "absent", false, false, false, none, none, none⟩] hve false) ∧
    (∀ (want : List VlanWant) (hve : List VlanHave), "no vlan 1" ∉ vlanPurgeCmds want hve) := by
  constructor
  · intro v hve h
    obtain ⟨o, ho⟩ := Option.isSome_iff_exists.mp h
    simp [mapVlansToCommands, mapVlansBody, vlanWantCmds, ho]
  · intro want hve hmem
    simp only [vlanPurgeCmds, List.mem_map, List.mem_filter, Bool.and_eq_true,
      decide_eq_true_eq] at hmem
    obtain ⟨h, ⟨_, _, hne⟩, heq⟩ := hmem
    exact hne (append_left_cancel (p := "no vlan ") (a := h.vlan_id) (b := "1") heq)

/-- C1, witness for the amended theorem at vlan 1. -/
theorem C1_witness :
    (searchVlanHave "1" [⟨"1", "default"⟩]).isSome = true ∧
    ("no vlan " ++ "1") ∈
      mapVlansToCommands [⟨"1", none, "absent", false, false, false, none, none, none⟩]
        [⟨"1", "default"⟩] false :=
  ⟨rfl, C1_absent_request_deletes.1 "1" [⟨"1", "default"⟩] rfl⟩

/-! ## C4 -/

/-- C4: when the observed voice vlan differs from the desired one under
`state=present`, the first command appended is the literal
`'voice vlan {}' + vlan_id` (concatenation with the unsubstituted format
pattern), which differs from the substituted `'voice vlan ' + vlan_id`. -/
theorem C4_malformed_voice_vlan_command :
    ∀ (vid dscp : String) (lldp : List String) (port : VoicePort),
      port.voice_vlan ≠ vid →
      (mapToCommandsInterface vid dscp lldp "present" port).head? =
        some ("voice vlan \x7b\x7d" ++ vid) ∧
      ("voice vlan \x7b\x7d" ++ vid) ≠ ("voice vlan " ++ vid) := by
  intro vid dscp lldp port h
  refine ⟨by simp [mapToCommandsInterface, h], fun he => ?_⟩
  have hl := congrArg String.length he
  rw [String.length_append, String.length_append] at hl
  rw [show ("voice vlan \x7b\x7d" : String).length = 13 from rfl,
    show ("voice vlan " : String).length = 11 from rfl] at hl
  omega

/-- C4, witness at a concrete port. -/
theorem C4_witness :
    (("no" : String) ≠ "100") ∧
    ((mapToCommandsInterface "100" "46" [] "present" ⟨"no", "46", []⟩).head? =
      some ("voice vlan \x7b\x7d" ++ "100") ∧
      ("voice vlan \x7b\x7d" ++ "100") ≠ ("voice vlan " ++ "100")) :=
  ⟨by decide, C4_malformed_voice_vlan_command "100" "46" [] ⟨"no", "46", []⟩ (by decide)⟩

/-! ## C7 -/

/-- C7: the vlan-database phase wraps its body in `vlan database`/`exit`
exactly when the body is non-empty, and the literal create scenario
produces exactly the four listed commands. -/
theorem C7_phase_wrapping :
    mapVlansToCommands [⟨"100", some "voice", "present", false, false, false, none, none, none⟩]
        [] false = ["vlan database", "vlan 100", "vlan name 100 \"voice\"", "exit"] ∧
    ∀ (want : List VlanWant) (hve : List VlanHave) (purge : Bool),
      (mapVlansBody want hve purge = [] → mapVlansToCommands want hve purge = []) ∧
      (mapVlansBody want hve purge ≠ [] →
        mapVlansToCommands want hve purge =
          "vlan database" :: mapVlansBody want hve purge ++ ["exit"]) :=
  ⟨rfl, fun want hve purge =>
    ⟨fun h => by simp [mapVlansToCommands, h], fun h => by simp [mapVlansToCommands, h]⟩⟩

/-- C7, witness: the empty phase emits nothing, with no wrapper. -/
theorem C7_witness :
    mapVlansBody [] [] false = [] ∧ mapVlansToCommands [] [] false = [] :=
  ⟨rfl, (C7_phase_wrapping.2 [] [] false).1 rfl⟩

/-! ## C10 -/

theorem lookupA_setKey {α : Type} (m : List (String × α)) (k : String) (v : α) (k' : String) :
    lookupA (setKey m k v) k' = if k = k' then some v else lookupA m k' := by
  induction m with
  | nil => simp [setKey, lookupA]
  | cons p rest ih =>
    obtain ⟨pk, pv⟩ := p
    by_cases h1 : pk = k
    · subst h1
      by_cases h2 : pk = k' <;> simp [setKey, lookupA, h2]
    · by_cases h2 : pk = k'
      · subst h2
        have : ¬ k = pk := fun h => h1 h.symm
        simp [setKey, lookupA, h1, this]
      · simp [setKey, lookupA, h1, h2, ih]

theorem mem_setKey {α : Type} {m : List (String × α)} {k : String} {v : α} {p : String × α}
    (h : p ∈ setKey m k v) : p ∈ m ∨ p = (k, v) := by
  induction m with
  | nil => simpa [setKey] using h
  | cons q rest ih =>
    obtain ⟨qk, qv⟩ := q
    by_cases h1 : qk = k
    · simp only [setKey, h1, if_pos rfl] at h
      rcases List.mem_cons.mp h with h2 | h2
      · exact Or.inr h2
      · exact Or.inl (List.mem_cons_of_mem _ h2)
    · simp only [setKey, h1, if_neg h1] at h
      rcases List.mem_cons.mp h with h2 | h2
      · exact Or.inl (h2 ▸ List.mem_cons_self _ _)
      · rcases ih h2 with h3 | h3
        · exact Or.inl (List.mem_cons_of_mem _ h3)
        · exact Or.inr h3

theorem lookupA_voiceAll (vid dscp : String) (lldp : List String) (st : String)
    (ports : List (String × VoicePort)) (acc : List (String × List String)) (k : String)
    (hk : strStartsWith k "0/" = false) :
    lookupA (voiceAll vid dscp lldp st ports acc) k = lookupA acc k := by
  induction ports generalizing acc with
  | nil => rfl
  | cons q rest ih =>
    obtain ⟨qk, qv⟩ := q
    have hstep : voiceAll vid dscp lldp st ((qk, qv) :: rest) acc =
        voiceAll vid dscp lldp st rest
          (if strStartsWith qk "0/" = true
            then setKey acc qk (mapToCommandsInterface vid dscp lldp st qv) else acc) := rfl
    rw [hstep, ih]
    by_cases hq : strStartsWith qk "0/" = true
    · rw [if_pos hq, lookupA_setKey]
      have hne : qk ≠ k := fun h => by rw [h, hk] at hq; exact Bool.false_ne_true hq
      rw [if_neg hne]
    · rw [if_neg hq]

theorem mem_voiceAll {vid dscp : String} {lldp : List String} {st : String}
    {ports : List (String × VoicePort)} {acc : List (String × List String)}
    {p : String × List String} (h : p ∈ voiceAll vid dscp lldp st ports acc) :
    p ∈ acc ∨ ∃ q ∈ ports, strStartsWith q.1 "0/" = true ∧
      p = (q.1, mapToCommandsInterface vid dscp lldp st q.2) := by
  induction ports generalizing acc with
  | nil => exact Or.inl h
  | cons q rest ih =>
    obtain ⟨qk, qv⟩ := q
    have h' : p ∈ List.foldl _
        (if strStartsWith qk "0/" = true
          then setKey acc qk (mapToCommandsInterface vid dscp lldp st qv) else acc) rest := h
    by_cases hq : strStartsWith qk "0/" = true
    · rw [if_pos hq] at h'
      rcases ih h' with h2 | ⟨r, hr, hs, he⟩
      · rcases mem_setKey h2 with h3 | h3
        · exact Or.inl h3
        · exact Or.inr ⟨(qk, qv), List.mem_cons_self _ _, hq, h3⟩
      · exact Or.inr ⟨r, List.mem_cons_of_mem _ hr, hs, he⟩
    · rw [if_neg hq] at h'
      rcases ih h' with h2 | ⟨r, hr, hs, he⟩
      · exact Or.inl h2
      · exact Or.inr ⟨r, List.mem_cons_of_mem _ hr, hs, he⟩

theorem mem_voiceEmit {target : String} (acc : List (String × List String))
    (cs : List String) :
    target ∈ voiceEmit acc cs ↔
      target ∈ cs ∨ ∃ p ∈ acc, p.2 ≠ [] ∧ (target = "interface " ++ p.1 ∨ target ∈ p.2) := by
  induction acc generalizing cs with
  | nil => simp [voiceEmit]
  | cons p rest ih =>
    have hstep : voiceEmit (p :: rest) cs =
        voiceEmit rest (if p.2 ≠ [] then cs ++ ("interface " ++ p.1) :: p.2 else cs) := rfl
    by_cases hp : p.2 = []
    · rw [hstep, if_neg (fun h => h hp), ih]
      constructor
      · rintro (h | ⟨q, hq, hq2, hq3⟩)
        · exact Or.inl h
        · exact Or.inr ⟨q, List.mem_cons_of_mem _ hq, hq2, hq3⟩
      · rintro (h | ⟨q, hq, hq2, hq3⟩)
        · exact Or.inl h
        · rcases List.mem_cons.mp hq with h4 | h4
          · exact absurd (by rw [h4]; exact hp) hq2
          · exact Or.inr ⟨q, h4, hq2, hq3⟩
    · rw [hstep, if_pos hp, ih]
      constructor
      · rintro (h | ⟨q, hq, hq2, hq3⟩)
        · rcases List.mem_append.mp h with h1 | h1
          · exact Or.inl h1
          · rcases List.mem_cons.mp h1 with h2 | h2
            · exact Or.inr ⟨p, List.mem_cons_self _ _, hp, Or.inl h2⟩
            · exact Or.inr ⟨p, List.mem_cons_self _ _, hp, Or.inr h2⟩
        · exact Or.inr ⟨q, List.mem_cons_of_mem _ hq, hq2, hq3⟩
      · rintro (h | ⟨q, hq, hq2, hq3⟩)
        · exact Or.inl (List.mem_append.mpr (Or.inl h))
        · rcases List.mem_cons.mp hq with h4 | h4
          · subst h4
            rcases hq3 with h5 | h5
            · exact Or.inl (List.mem_append.mpr (Or.inr (List.mem_cons.mpr (Or.inl h5))))
            · exact Or.inl (List.mem_append.mpr (Or.inr (List.mem_cons.mpr (Or.inr h5))))
          · exact Or.inr ⟨q, h4, hq2, hq3⟩

theorem interface_notin_voice_cmds (vid dscp : String) (lldp : List String) (st : String)
    (port : VoicePort) (s : String) :
    ("interface " ++ s) ∉ mapToCommandsInterface vid dscp lldp st port := by
  intro h
  unfold mapToCommandsInterface at h
  split at h
  · rcases List.mem_append.mp h with h1 | h1
    · rcases List.mem_append.mp h1 with h2 | h2
      · split at h2
        · rcases List.mem_singleton.mp h2 with h3
          exact append_ne_append
            (show ("interface " : String).data = 'i' :: ("nterface " : String).data from rfl)
            (show ("voice vlan \x7b\x7d" : String).data =
              'v' :: ("oice vlan \x7b\x7d" : String).data from rfl)
            (by decide) s vid h3
        · exact absurd h2 (List.not_mem_nil _)
      · split at h2
        · rcases List.mem_singleton.mp h2 with h3
          exact append_ne_append
            (show ("interface " : String).data = 'i' :: ("nterface " : String).data from rfl)
            (show ("voice vlan dscp " : String).data =
              'v' :: ("oice vlan dscp " : String).data from rfl)
            (by decide) s dscp h3
        · exact absurd h2 (List.not_mem_nil _)
    · rcases List.mem_map.mp h1 with ⟨t, _, h3⟩
      exact append_ne_append
        (show ("interface " : String).data = 'i' :: ("nterface " : String).data from rfl)
        (show ("lldp " : String).data = 'l' :: ("ldp " : String).data from rfl)
        (by decide) s t h3.symm
  · split at h
    · rcases List.mem_append.mp h with h1 | h1
      · split at h1
        · rcases List.mem_singleton.mp h1 with h3
          exact append_ne_lit
            (show ("interface " : String).data = 'i' :: ("nterface " : String).data from rfl)
            (show ("no voice vlan" : String).data = 'n' :: ("o voice vlan" : String).data from rfl)
            (by decide) s h3
        · exact absurd h1 (List.not_mem_nil _)
      · split at h1
        · rcases List.mem_singleton.mp h1 with h3
          exact append_ne_lit
            (show ("interface " : String).data = 'i' :: ("nterface " : String).data from rfl)
            (show ("no voice vlan dscp" : String).data =
              'n' :: ("o voice vlan dscp" : String).data from rfl)
            (by decide) s h3
        · exact absurd h1 (List.not_mem_nil _)
    · exact absurd h (List.not_mem_nil _)

theorem voiceMapToCommands_all (vid dscp : String) (lldp : List String) (st : String)
    (ports : List (String × VoicePort))
    (hb : (decide (st = "present") && decide (vid = "None")) = false) :
    voiceMapToCommands [⟨vid, dscp, ["all"], lldp, st⟩] ports =
      .ok (voiceEmit (voiceAll vid dscp lldp st ports []) []) := by
  unfold voiceMapToCommands
  rw [List.foldlM_cons]
  simp only [List.foldlM_nil, bind_pure, hb]
  rw [if_neg (by simp)]
  rfl

/-- C10: the voice wildcard token `all` resolves only to observed
interfaces whose key starts with `0/`; any other observed interface is
skipped silently: it does not enter the accumulator and no command block
is emitted for it. -/
theorem C10_all_restricted_to_group0 :
    (∀ (vid dscp : String) (lldp : List String) (st : String)
        (ports : List (String × VoicePort)) (k : String),
      strStartsWith k "0/" = false →
      lookupA (voiceAll vid dscp lldp st ports []) k = none) ∧
    (∀ (w : VoiceWant) (ports : List (String × VoicePort)) (cmds : List String) (k : String),
      w.interfaces = ["all"] → strStartsWith k "0/" = false →
      voiceMapToCommands [w] ports = .ok cmds →
      ("interface " ++ k) ∉ cmds) := by
  constructor
  · intro vid dscp lldp st ports k hk
    rw [lookupA_voiceAll _ _ _ _ _ _ _ hk]
    rfl
  · intro w ports cmds k hi hk hcmds
    obtain ⟨vid, dscp, ifs, lldp, st⟩ := w
    simp only at hi hcmds
    subst hi
    by_cases hbad : (decide (st = "present") && decide (vid = "None")) = true
    · have : voiceMapToCommands [⟨vid, dscp, ["all"], lldp, st⟩] ports =
          .error "state is 'present' but the following is missing: vlan_id" := by
        unfold voiceMapToCommands
        rw [List.foldlM_cons]
        rw [if_pos hbad]
        rfl
      rw [this] at hcmds
      exact absurd hcmds (by simp)
    · rw [voiceMapToCommands_all vid dscp lldp st ports (by simpa using hbad)] at hcmds
      have hc : cmds = voiceEmit (voiceAll vid dscp lldp st ports []) [] := by
        simpa using hcmds.symm
      subst hc
      intro hmem
      rcases (mem_voiceEmit _ _).mp hmem with h | ⟨p, hp, _, hcase⟩
      · exact absurd h (List.not_mem_nil _)
      · rcases mem_voiceAll hp with h2 | ⟨q, _, hqs, rfl⟩
        · exact absurd h2 (List.not_mem_nil _)
        · rcases hcase with h3 | h3
          · have hkq : k = q.1 := append_left_cancel h3
            rw [← hkq, hk] at hqs
            exact Bool.false_ne_true hqs
          · exact interface_notin_voice_cmds _ _ _ _ _ _ h3

/-- C10, witness: a `lag 1` port under `all` gets no accumulator entry and
no command block. -/
theorem C10_witness :
    strStartsWith "lag 1" "0/" = false ∧
    lookupA (voiceAll "100" "46" [] "present"
      [("0/1", ⟨"no", "no", []⟩), ("lag 1", ⟨"no", "no", []⟩)] []) "lag 1" = none :=
  ⟨rfl, C10_all_restricted_to_group0.1 "100" "46" [] "present"
    [("0/1", ⟨"no", "no", []⟩), ("lag 1", ⟨"no", "no", []⟩)] "lag 1" rfl⟩

/-! ## C5 -/

theorem lookupA_foldl_setKey {α : Type} [DecidableEq α] (act : α) (ks : List String)
    (init : List (String × α)) (k' : String) :
    lookupA (ks.foldl (fun a k => setKey a k act) init) k' =
      if k' ∈ ks then some act else lookupA init k' := by
  induction ks generalizing init with
  | nil => simp
  | cons h t ih =>
    rw [List.foldl_cons, ih]
    by_cases h1 : k' ∈ t
    · simp [h1]
    · rw [if_neg h1, lookupA_setKey]
      by_cases h2 : h = k'
      · subst h2
        simp
      · have h3 : k' ∉ h :: t := by
          intro hm
          rcases List.mem_cons.mp hm with h4 | h4
          · exact h2 h4.symm
          · exact h1 h4
        rw [if_neg h2, if_neg h3]

theorem mem_rangeKeys (g : String) (i1 i2 : Nat) (k : String) :
    k ∈ rangeKeys g i1 i2 ↔ ∃ i, i1 ≤ i ∧ i ≤ i2 ∧ k = g ++ "/" ++ toString i := by
  simp only [rangeKeys, List.mem_map, List.mem_range]
  constructor
  · rintro ⟨j, hj, rfl⟩
    exact ⟨i1 + j, Nat.le_add_right _ _, by omega, rfl⟩
  · rintro ⟨i, h1, h2, rfl⟩
    exact ⟨i - i1, by omega, by rw [Nat.add_sub_cancel' h1]⟩

/-- C5: a same-group range token expands to exactly the keys
`g/i` for `i` in `[idxA, idxB]` (shown both literally for `0/4-0/6` and
as a set characterization of the resulting dict), while a cross-group
range token aborts validation with the FormatError naming the token, so
the module emits no command. -/
theorem C5_range_expansion :
    (setInterfaces (some ["0/4-0/6"]) [] .tag =
      [("0/4", .tag), ("0/5", .tag), ("0/6", .tag)]) ∧
    (∀ (tok g gB : String) (iA iB : Nat) (act : MAction) (k : String),
      parseRange tok = some (g, iA, gB, iB) → gB = g →
      (lookupA (setInterfaces (some [tok]) [] act) k = some act ↔
        ∃ i, iA ≤ i ∧ i ≤ iB ∧ k = g ++ "/" ++ toString i)) ∧
    (∀ (tok g gB : String) (iA iB : Nat) (hve : List VlanHave)
        (ports : List (String × Port)) (purge : Bool),
      parseRange tok = some (g, iA, gB, iB) → g ≠ gB →
      runVlanModule [⟨"100", none, "present", false, false, false, some [tok], none, none⟩]
        hve ports purge =
        .error ("interface range must be withing same group: " ++ tok)) := by
  refine ⟨rfl, ?_, ?_⟩
  · intro tok g gB iA iB act k hp hgb
    rw [hgb] at hp
    have hset : setInterfaces (some [tok]) [] act =
        (rangeKeys g iA iB).foldl (fun a k => setKey a k act) [] := by
      simp [setInterfaces, hp]
    rw [hset, lookupA_foldl_setKey]
    by_cases hm : k ∈ rangeKeys g iA iB
    · simp only [if_pos hm, true_iff]
      exact (mem_rangeKeys g iA iB k).mp hm
    · simp only [if_neg hm, lookupA]
      constructor
      · intro h
        exact absurd h (by simp)
      · intro h
        exact absurd ((mem_rangeKeys g iA iB k).mpr h) hm
  · intro tok g gB iA iB hve ports purge hp hne
    have htok : checkTok tok =
        .error ("interface range must be withing same group: " ++ tok) := by
      unfold checkTok
      rw [hp]
      simp [hne]
    have hcp : checkParams [⟨"100", none, "present", false, false, false, some [tok],
        none, none⟩] = .error ("interface range must be withing same group: " ++ tok) := by
      show (checkOne _ >>= fun _ => List.forM [] checkOne) = _
      have hone : checkOne ⟨"100", none, "present", false, false, false, some [tok],
          none, none⟩ = .error ("interface range must be withing same group: " ++ tok) := by
        unfold checkOne
        rw [if_neg (by simp [countAuto])]
        show ((checkTok tok >>= fun _ => List.forM [] checkTok) >>= _) = _
        rw [htok]
        rfl
      rw [hone]
      rfl
    unfold runVlanModule
    rw [hcp]
    rfl

/-- C5, witness: the concrete expansion of `0/4-0/6` and the concrete
rejection of `0/4-1/6`. -/
theorem C5_witness :
    parseRange "0/4-0/6" = some ("0", 4, "0", 6) ∧
    (lookupA (setInterfaces (some ["0/4-0/6"]) [] .untag) "0/5" = some .untag ↔
      ∃ i, 4 ≤ i ∧ i ≤ 6 ∧ "0/5" = "0" ++ "/" ++ toString i) ∧
    parseRange "0/4-1/6" = some ("0", 4, "1", 6) ∧
    runVlanModule [⟨"100", none, "present", false, false, false, some ["0/4-1/6"], none, none⟩]
      [] [] false = .error ("interface range must be withing same group: " ++ "0/4-1/6") :=
  ⟨rfl, C5_range_expansion.2.1 "0/4-0/6" "0" "0" 4 6 .untag "0/5" rfl rfl, rfl,
    C5_range_expansion.2.2 "0/4-1/6" "0" "1" 4 6 [] [] false rfl (by decide)⟩

/-! ## C9 -/

theorem checkParams_cons (w : VlanWant) (l : List VlanWant) :
    checkParams (w :: l) = (checkOne w >>= fun _ => checkParams l) := rfl

/-- C9: a desired VLAN entry with more than one of the three auto flags
set makes validation fail with the message naming all three fields;
the module pipeline returns that error and emits no command list. -/
theorem C9_auto_flags_mutually_exclusive :
    ∀ (pre post : List VlanWant) (w : VlanWant) (hve : List VlanHave)
      (ports : List (String × Port)) (purge : Bool),
      (∀ w' ∈ pre, checkOne w' = .ok ()) → 1 < countAuto w →
      runVlanModule (pre ++ w :: post) hve ports purge =
        .error "parameters are mutually exclusive: auto_tag, auto_untag, auto_exclude" := by
  intro pre post w hve ports purge hok hc
  have herr : checkParams (pre ++ w :: post) =
      .error "parameters are mutually exclusive: auto_tag, auto_untag, auto_exclude" := by
    induction pre with
    | nil =>
      rw [List.nil_append, checkParams_cons]
      have hone : checkOne w = .error
          "parameters are mutually exclusive: auto_tag, auto_untag, auto_exclude" := by
        unfold checkOne
        rw [if_pos hc]
      rw [hone]
      rfl
    | cons p rest ih =>
      rw [List.cons_append, checkParams_cons, hok p (List.mem_cons_self _ _)]
      rw [ih (fun w' hw' => hok w' (List.mem_cons_of_mem _ hw'))]
      rfl
  unfold runVlanModule
  rw [herr]
  rfl

/-- C9, witness: an entry with `auto_tag` and `auto_exclude` both set. -/
theorem C9_witness :
    (∀ w' ∈ ([] : List VlanWant), checkOne w' = .ok ()) ∧
    1 < countAuto ⟨"1", none, "present", true, false, true, none, none, none⟩ ∧
    runVlanModule [⟨"1", none, "present", true, false, true, none, none, none⟩] [] [] false =
      .error "parameters are mutually exclusive: auto_tag, auto_untag, auto_exclude" :=
  ⟨fun w' hw' => absurd hw' (List.not_mem_nil _), by decide,
    C9_auto_flags_mutually_exclusive [] [] ⟨"1", none, "present", true, false, true, none,
      none, none⟩ [] [] false (fun w' hw' => absurd hw' (List.not_mem_nil _)) (by decide)⟩

/-! ## C3 -/

/-- The numeric (group, index) reading of an interface key: the order in
which the spec claims interface blocks are emitted. -/
def numKey (s : String) : Option (Nat × Nat) :=
  match parseIfacePart s with
  | some (g, i) =>
    match digitsToNat? g.data with
    | some gn => some (gn, i)
    | none => none
  | none => none

theorem charListLe_total : ∀ a b : List Char, charListLe a b = true ∨ charListLe b a = true
  | [], _ => Or.inl rfl
  | _ :: _, [] => Or.inr rfl
  | x :: as, y :: bs => by
    by_cases hxy : x < y
    · left
      simp [charListLe, hxy]
    · by_cases hyx : y < x
      · right
        simp [charListLe, hyx]
      · rcases charListLe_total as bs with h | h
        · left
          simp [charListLe, hxy, hyx, h]
        · right
          simp [charListLe, hxy, hyx, h]

theorem charListLe_trans : ∀ {a b c : List Char},
    charListLe a b = true → charListLe b c = true → charListLe a c = true
  | [], _, _, _, _ => rfl
  | _ :: _, [], _, h1, _ => by simp [charListLe] at h1
  | _ :: _, _ :: _, [], _, h2 => by simp [charListLe] at h2
  | x :: as, y :: bs, z :: cs, h1, h2 => by
    by_cases hxy : x < y
    · by_cases hyz : y < z
      · simp [charListLe, lt_trans hxy hyz]
      · by_cases hzy : z < y
        · simp [charListLe, hyz, hzy] at h2
        · have hyzeq : y = z := le_antisymm (not_lt.mp hzy) (not_lt.mp hyz)
          simp [charListLe, hyzeq ▸ hxy]
    · by_cases hyx : y < x
      · simp [charListLe, hxy, hyx] at h1
      · have hxyeq : x = y := le_antisymm (not_lt.mp hyx) (not_lt.mp hxy)
        subst hxyeq
        simp only [charListLe, if_neg hxy, if_neg hyx] at h1
        by_cases hyz : x < z
        · simp [charListLe, hyz]
        · by_cases hzy : z < x
          · simp [charListLe, hyz, hzy] at h2
          · simp only [charListLe, if_neg hyz, if_neg hzy] at h2 ⊢
            exact charListLe_trans h1 h2

theorem charListLe_antisymm : ∀ {a b : List Char},
    charListLe a b = true → charListLe b a = true → a = b
  | [], [], _, _ => rfl
  | [], _ :: _, _, h2 => by simp [charListLe] at h2
  | _ :: _, [], h1, _ => by simp [charListLe] at h1
  | x :: as, y :: bs, h1, h2 => by
    by_cases hxy : x < y
    · simp [charListLe, hxy, lt_asymm hxy] at h2
    · by_cases hyx : y < x
      · simp [charListLe, hxy, hyx] at h1
      · have hxyeq : x = y := le_antisymm (not_lt.mp hyx) (not_lt.mp hxy)
        subst hxyeq
        simp only [charListLe, if_neg hxy] at h1 h2
        rw [charListLe_antisymm h1 h2]

theorem sortByKey_sorted (m : List (String × List String)) :
    List.Pairwise (fun p q : String × List String => strLe p.1 q.1 = true) (sortByKey m) := by
  haveI : IsTotal (String × List String) (fun p q => strLe p.1 q.1 = true) :=
    ⟨fun p q => charListLe_total p.1.data q.1.data⟩
  haveI : IsTrans (String × List String) (fun p q => strLe p.1 q.1 = true) :=
    ⟨fun _ _ _ h1 h2 => charListLe_trans h1 h2⟩
  exact List.sorted_insertionSort _ m

theorem sortByKey_perm (m : List (String × List String)) : (sortByKey m).Perm m :=
  List.perm_insertionSort _ m

/-- C3, counterexample: with multi-digit indices the VLAN emitter orders
`0/10` before `0/2` (string order), though numerically `(0,2) < (0,10)`;
and the voice emitter keeps insertion order (`0/2` before `0/1`),
dependent on the accumulator's internal order. -/
theorem C3_counterexample :
    emitInterfaces [("0/2", ["vlan participation include 5"]), ("0/10", ["vlan tagging 5"])] =
      ["interface 0/10", "vlan tagging 5", "interface 0/2", "vlan participation include 5"] ∧
    numKey "0/2" = some (0, 2) ∧ numKey "0/10" = some (0, 10) ∧
    voiceEmit [("0/2", ["no voice vlan"]), ("0/1", ["no voice vlan"])] [] =
      ["interface 0/2", "no voice vlan", "interface 0/1", "no voice vlan"] :=
  ⟨rfl, rfl, rfl, rfl⟩

/-- C3, amended: the VLAN emitter sorts blocks by ascending code-point
string order of the identifier (not numerically), and is deterministic:
permuting an accumulator with distinct keys leaves the output unchanged;
the voice emitter emits blocks in the accumulator's own order. -/
theorem C3_string_order_deterministic :
    (∀ m : List (String × List String),
      List.Pairwise (fun p q : String × List String => strLe p.1 q.1 = true) (sortByKey m)) ∧
    (∀ m₁ m₂ : List (String × List String), m₁.Perm m₂ → (m₁.map Prod.fst).Nodup →
      emitInterfaces m₁ = emitInterfaces m₂) ∧
    (∀ (acc : List (String × List String)) (cs : List String),
      voiceEmit acc cs =
        cs ++ (acc.map (fun p =>
          if p.2 ≠ [] then ("interface " ++ p.1) :: p.2 else [])).flatten) := by
  refine ⟨sortByKey_sorted, ?_, ?_⟩
  · intro m₁ m₂ hperm hnd
    suffices h : sortByKey m₁ = sortByKey m₂ by
      unfold emitInterfaces
      rw [h]
    have hp : (sortByKey m₁).Perm (sortByKey m₂) :=
      (sortByKey_perm m₁).trans (hperm.trans (sortByKey_perm m₂).symm)
    have hnd1 : ((sortByKey m₁).map Prod.fst).Nodup :=
      (((sortByKey_perm m₁).map Prod.fst).nodup_iff).mpr hnd
    have hnd2 : ((sortByKey m₂).map Prod.fst).Nodup :=
      (((sortByKey_perm m₂).map Prod.fst).trans
        ((hperm.map Prod.fst).symm)).nodup_iff.mpr hnd
    have hne1 : List.Pairwise (fun p q : String × List String => p.1 ≠ q.1) (sortByKey m₁) :=
      List.pairwise_map.mp hnd1
    have hne2 : List.Pairwise (fun p q : String × List String => p.1 ≠ q.1) (sortByKey m₂) :=
      List.pairwise_map.mp hnd2
    have hs1 := (sortByKey_sorted m₁).and hne1
    have hs2 := (sortByKey_sorted m₂).and hne2
    haveI : IsAntisymm (String × List String)
        (fun p q => strLe p.1 q.1 = true ∧ p.1 ≠ q.1) :=
      ⟨fun a b h1 h2 => absurd (String.ext (charListLe_antisymm h1.1 h2.1)) h1.2⟩
    exact List.eq_of_perm_of_sorted hp hs1 hs2
  · intro acc cs
    induction acc generalizing cs with
    | nil => simp [voiceEmit]
    | cons p rest ih =>
      have hstep : voiceEmit (p :: rest) cs =
          voiceEmit rest (if p.2 ≠ [] then cs ++ ("interface " ++ p.1) :: p.2 else cs) := rfl
      rw [hstep, ih]
      by_cases hp : p.2 = []
      · simp [hp]
      · simp [hp]

/-- C3, witness: a two-entry accumulator and its transposition emit the
same sorted command sequence. -/
theorem C3_witness :
    [("0/2", ["x"]), ("0/1", ["y"])].Perm [("0/1", ["y"]), ("0/2", ["x"])] ∧
    ([("0/2", ["x"]), ("0/1", ["y"])].map Prod.fst).Nodup ∧
    emitInterfaces [("0/2", ["x"]), ("0/1", ["y"])] =
      emitInterfaces [("0/1", ["y"]), ("0/2", ["x"])] :=
  ⟨List.Perm.swap _ _ _, by decide,
    C3_string_order_deterministic.2.1 [("0/2", ["x"]), ("0/1", ["y"])]
      [("0/1", ["y"]), ("0/2", ["x"])] (List.Perm.swap _ _ _) (by decide)⟩

/-! ## C6 -/

theorem noVlan_ne_vlan (X b : String) : ("no vlan " ++ X) ≠ ("vlan " ++ b) :=
  append_ne_append (show ("no vlan " : String).data = 'n' :: ("o vlan " : String).data from rfl)
    (show ("vlan " : String).data = 'v' :: ("lan " : String).data from rfl) (by decide) X b

theorem noVlan_ne_vlanName (X id n : String) :
    ("no vlan " ++ X) ≠ ("vlan name " ++ id ++ " \"" ++ n ++ "\"") := by
  intro h
  have hd := congrArg String.data h
  simp only [String.data_append] at hd
  simp at hd

theorem noVlan_ne_db (X : String) : ("no vlan " ++ X) ≠ "vlan database" :=
  append_ne_lit (show ("no vlan " : String).data = 'n' :: ("o vlan " : String).data from rfl)
    (show ("vlan database" : String).data = 'v' :: ("lan database" : String).data from rfl)
    (by decide) X

theorem noVlan_ne_exit (X : String) : ("no vlan " ++ X) ≠ "exit" :=
  append_ne_lit (show ("no vlan " : String).data = 'n' :: ("o vlan " : String).data from rfl)
    (show ("exit" : String).data = 'e' :: ("xit" : String).data from rfl) (by decide) X

/-- A `no vlan X` string occurs in one entry's commands only from the
absent branch, for that entry's own vlan id. -/
theorem noVlan_mem_vlanWantCmds {X : String} {w : VlanWant} {hve : List VlanHave}
    (h : ("no vlan " ++ X) ∈ vlanWantCmds w hve) :
    w.vlan_id = X ∧ w.state = "absent" := by
  unfold vlanWantCmds at h
  by_cases habs : w.state = "absent"
  · rw [if_pos habs] at h
    cases hs : searchVlanHave w.vlan_id hve with
    | none => rw [hs] at h; exact absurd h (List.not_mem_nil _)
    | some o =>
      rw [hs] at h
      have := List.mem_singleton.mp h
      exact ⟨(append_left_cancel this).symm, habs⟩
  · rw [if_neg habs] at h
    by_cases hpres : w.state = "present"
    · rw [if_pos hpres] at h
      cases hs : searchVlanHave w.vlan_id hve with
      | none =>
        rw [hs] at h
        rcases List.mem_cons.mp h with h1 | h1
        · exact absurd h1 (noVlan_ne_vlan X w.vlan_id)
        · cases hn : w.name with
          | none => rw [hn] at h1; exact absurd h1 (List.not_mem_nil _)
          | some n =>
            simp only [hn] at h1
            by_cases hne : n ≠ ""
            · rw [if_pos hne] at h1
              exact absurd (List.mem_singleton.mp h1) (noVlan_ne_vlanName X w.vlan_id n)
            · rw [if_neg hne] at h1; exact absurd h1 (List.not_mem_nil _)
      | some o =>
        rw [hs] at h
        cases hn : w.name with
        | none => rw [hn] at h; exact absurd h (List.not_mem_nil _)
        | some n =>
          simp only [hn] at h
          by_cases hne : n ≠ ""
          · rw [if_pos hne] at h
            by_cases hno : n ≠ o.name
            · rw [if_pos hno] at h
              exact absurd (List.mem_singleton.mp h) (noVlan_ne_vlanName X w.vlan_id n)
            · rw [if_neg hno] at h; exact absurd h (List.not_mem_nil _)
          · rw [if_neg hne] at h; exact absurd h (List.not_mem_nil _)
    · rw [if_neg hpres] at h
      exact absurd h (List.not_mem_nil _)

theorem foldl_append_cmds {α : Type} (f : α → List String) :
    ∀ (l : List α) (init : List String),
      l.foldl (fun acc w => acc ++ f w) init = init ++ (l.map f).flatten
  | [], init => by simp
  | a :: l, init => by
    rw [List.foldl_cons, foldl_append_cmds f l (init ++ f a)]
    simp

/-- The want loop of `map_vlans_to_commands`, as a flat list. -/
theorem mapVlansBody_eq (want : List VlanWant) (hve : List VlanHave) (purge : Bool) :
    mapVlansBody want hve purge =
      (want.map (fun w => vlanWantCmds w hve)).flatten ++
        (if purge then vlanPurgeCmds want hve else []) := by
  unfold mapVlansBody
  rw [foldl_append_cmds]
  simp


theorem count_vlanPurgeCmds (want : List VlanWant) (X : String) (hX : X ≠ "1")
    (hs : searchVlanWant X want = none) :
    ∀ hve : List VlanHave,
      List.count ("no vlan " ++ X) (vlanPurgeCmds want hve) =
        (hve.filter (fun h => h.vlan_id = X)).length
  | [] => rfl
  | h :: rest => by
    have ih := count_vlanPurgeCmds want X hX hs rest
    by_cases hid : h.vlan_id = X
    · have hpred : ((searchVlanWant h.vlan_id want).isNone && h.vlan_id ≠ "1") = true := by
        rw [hid, hs]
        simp [hX]
      have hstep : vlanPurgeCmds want (h :: rest) =
          ("no vlan " ++ h.vlan_id) :: vlanPurgeCmds want rest := by
        unfold vlanPurgeCmds
        rw [List.filter_cons, if_pos hpred]
        rfl
      have hbeq : ("no vlan " ++ h.vlan_id == "no vlan " ++ X) = true := by
        rw [hid]
        exact beq_self_eq_true _
      rw [hstep, List.filter_cons, if_pos (show decide (h.vlan_id = X) = true by simp [hid])]
      simp only [List.count_cons, hbeq, ih, List.length_cons]
      simp
    · by_cases hpred : ((searchVlanWant h.vlan_id want).isNone && h.vlan_id ≠ "1") = true
      · have hstep : vlanPurgeCmds want (h :: rest) =
            ("no vlan " ++ h.vlan_id) :: vlanPurgeCmds want rest := by
          unfold vlanPurgeCmds
          rw [List.filter_cons, if_pos hpred]
          rfl
        have hbeq : ("no vlan " ++ h.vlan_id == "no vlan " ++ X) = false :=
          beq_eq_false_iff_ne.mpr (fun he => hid (append_left_cancel he))
        rw [hstep, List.filter_cons, if_neg (show ¬ decide (h.vlan_id = X) = true by simp [hid])]
        simp only [List.count_cons, hbeq, ih]
        simp
      · have hstep : vlanPurgeCmds want (h :: rest) = vlanPurgeCmds want rest := by
          unfold vlanPurgeCmds
          rw [List.filter_cons, if_neg hpred]
        rw [hstep, ih, List.filter_cons,
          if_neg (show ¬ decide (h.vlan_id = X) = true by simp [hid])]

/-- C6: with purge set, each observed vlan that is absent from the
desired set gets exactly one delete command — except the default vlan:
as long as no desired entry is an absent request for vlan 1, no
`no vlan 1` command ever appears. -/
theorem C6_purge_deletes_once_except_vlan1 :
    ∀ (want : List VlanWant) (hve : List VlanHave) (X : String),
      ((hve.filter (fun h => h.vlan_id = X)).length = 1 →
        searchVlanWant X want = none → X ≠ "1" →
        List.count ("no vlan " ++ X) (mapVlansToCommands want hve true) = 1) ∧
      ((∀ w ∈ want, ¬(w.vlan_id = "1" ∧ w.state = "absent")) →
        "no vlan 1" ∉ mapVlansToCommands want hve true) := by
  intro want hve X
  constructor
  · intro hlen hs hX
    have hnotwant : ∀ w ∈ want, w.vlan_id ≠ X := by
      rw [searchVlanWant, List.find?_eq_none] at hs
      intro w hw he
      exact hs w hw (by simp [he])
    have hcount0 : List.count ("no vlan " ++ X)
        ((want.map (fun w => vlanWantCmds w hve)).flatten) = 0 := by
      apply List.count_eq_zero.mpr
      intro hmem
      rcases List.mem_flatten.mp hmem with ⟨cs, hcs, hx⟩
      rcases List.mem_map.mp hcs with ⟨w, hw, rfl⟩
      exact hnotwant w hw (noVlan_mem_vlanWantCmds hx).1
    have hcountp : List.count ("no vlan " ++ X) (vlanPurgeCmds want hve) = 1 := by
      rw [count_vlanPurgeCmds want X hX hs hve, hlen]
    have hbody : List.count ("no vlan " ++ X) (mapVlansBody want hve true) = 1 := by
      rw [mapVlansBody_eq, if_pos rfl, List.count_append, hcount0, hcountp]
    have hne : mapVlansBody want hve true ≠ [] := by
      intro he
      rw [he] at hbody
      exact absurd hbody (by simp)
    have hmap : mapVlansToCommands want hve true =
        "vlan database" :: mapVlansBody want hve true ++ ["exit"] := by
      show (if mapVlansBody want hve true = [] then [] else
        "vlan database" :: mapVlansBody want hve true ++ ["exit"]) = _
      rw [if_neg hne]
    rw [hmap]
    have hdb : (("vlan database" : String) == "no vlan " ++ X) = false :=
      beq_eq_false_iff_ne.mpr (fun he => noVlan_ne_db X he.symm)
    have hex : (("exit" : String) == "no vlan " ++ X) = false :=
      beq_eq_false_iff_ne.mpr (fun he => noVlan_ne_exit X he.symm)
    simp only [List.count_cons, List.count_append, List.count_nil, hdb, hex, hbody]
    simp
  · intro hnone hmem
    have hX : ("no vlan 1" : String) = "no vlan " ++ "1" := rfl
    by_cases hbody : mapVlansBody want hve true = []
    · have hmap : mapVlansToCommands want hve true = [] := by
        show (if mapVlansBody want hve true = [] then [] else _) = []
        rw [if_pos hbody]
      rw [hmap] at hmem
      exact absurd hmem (List.not_mem_nil _)
    · have hmap : mapVlansToCommands want hve true =
          "vlan database" :: mapVlansBody want hve true ++ ["exit"] := by
        show (if mapVlansBody want hve true = [] then [] else
          "vlan database" :: mapVlansBody want hve true ++ ["exit"]) = _
        rw [if_neg hbody]
      rw [hmap] at hmem
      rcases List.mem_cons.mp hmem with h1 | h1
      · exact noVlan_ne_db "1" (hX ▸ h1)
      · rcases List.mem_append.mp h1 with h2 | h2
        · rw [mapVlansBody_eq, if_pos rfl] at h2
          rcases List.mem_append.mp h2 with h3 | h3
          · rcases List.mem_flatten.mp h3 with ⟨cs, hcs, hx⟩
            rcases List.mem_map.mp hcs with ⟨w, hw, rfl⟩
            exact hnone w hw (noVlan_mem_vlanWantCmds (hX ▸ hx))
          · rcases List.mem_map.mp h3 with ⟨h, hh, he⟩
            have h4 : h.vlan_id = "1" := (append_left_cancel (hX ▸ he.symm)).symm
            have h5 := (List.mem_filter.mp hh).2
            rw [h4] at h5
            simp at h5
        · exact noVlan_ne_exit "1" (hX ▸ List.mem_singleton.mp h2)

/-- C6, witness: purging `have = [vlan 1, vlan 20]` against
`want = [vlan 10 present]` deletes vlan 20 exactly once and never vlan 1. -/
theorem C6_witness :
    (([⟨"1", "default"⟩, ⟨"20", "video"⟩] :
        List VlanHave).filter (fun h => h.vlan_id = "20")).length = 1 ∧
    searchVlanWant "20" [⟨"10", none, "present", false, false, false, none, none, none⟩] =
      none ∧
    List.count ("no vlan " ++ "20")
      (mapVlansToCommands [⟨"10", none, "present", false, false, false, none, none, none⟩]
        [⟨"1", "default"⟩, ⟨"20", "video"⟩] true) = 1 ∧
    "no vlan 1" ∉
      mapVlansToCommands [⟨"10", none, "present", false, false, false, none, none, none⟩]
        [⟨"1", "default"⟩, ⟨"20", "video"⟩] true := by
  refine ⟨rfl, rfl, ?_, ?_⟩
  · exact (C6_purge_deletes_once_except_vlan1
      [⟨"10", none, "present", false, false, false, none, none, none⟩]
      [⟨"1", "default"⟩, ⟨"20", "video"⟩] "20").1 rfl rfl (by decide)
  · exact (C6_purge_deletes_once_except_vlan1
      [⟨"10", none, "present", false, false, false, none, none, none⟩]
      [⟨"1", "default"⟩, ⟨"20", "video"⟩] "1").2
      (by intro w hw hc; rcases List.mem_singleton.mp hw with rfl; exact absurd hc.1 (by decide))

/-! ## C8 -/

/-- C8, counterexample: in the voice domain a desired entry that names an
interface absent from the observed set does not produce a warning and a
completed command list — the lookup error aborts the whole run. -/
theorem C8_counterexample :
    voiceMapToCommands [⟨"100", "46", ["0/5"], [], "present"⟩]
      [("0/1", ⟨"no", "no", []⟩)] = .error "KeyError: 0/5" := rfl

/-- C8, amended: only the interface domain turns an unknown interface
into the warning `interface X does not exist on target`, skips that
entry and processes the rest; the voice domain raises an unhandled
KeyError that aborts the invocation with no commands and no warning. -/
theorem C8_interface_warns_voice_aborts :
    (∀ (w : IntfWant) (rest : List IntfWant) (hve : List IntfHave)
        (orc : String → Option String),
      searchIntf w.name hve = none →
      mapObjToCommands (w :: rest) hve orc =
        ((mapObjToCommands rest hve orc).1,
          ("interface " ++ w.name ++ " does not exist on target") ::
            (mapObjToCommands rest hve orc).2)) ∧
    (∀ (i vid dscp : String) (lldp : List String) (ports : List (String × VoicePort)),
      lookupA ports i = none → parseVoiceRange i = none → i ≠ "all" → vid ≠ "None" →
      voiceMapToCommands [⟨vid, dscp, [i], lldp, "present"⟩] ports =
        .error ("KeyError: " ++ i)) := by
  constructor
  · intro w rest hve orc h
    conv_lhs => rw [mapObjToCommands]
    rw [h]
  · intro i vid dscp lldp ports hlk hpr hall hvid
    unfold voiceMapToCommands
    rw [List.foldlM_cons]
    simp only [List.foldlM_nil, bind_pure]
    rw [if_neg (by simp [hvid])]
    have hproc : voiceProcessIface vid dscp lldp "present" ports [] i =
        .error ("KeyError: " ++ i) := by
      unfold voiceProcessIface
      rw [if_neg hall, hpr, hlk]
    rw [List.foldlM_cons, hproc]
    rfl

/-- C8, witness: one missing interface in each domain. -/
theorem C8_witness :
    searchIntf "0/9" [⟨"0/2", none, some "auto", none, false⟩] = none ∧
    mapObjToCommands [⟨"0/9", none, none, none, some true⟩]
        [⟨"0/2", none, some "auto", none, false⟩] (fun _ => none) =
      ((mapObjToCommands [] [⟨"0/2", none, some "auto", none, false⟩] (fun _ => none)).1,
        ("interface " ++ "0/9" ++ " does not exist on target") ::
          (mapObjToCommands [] [⟨"0/2", none, some "auto", none, false⟩] (fun _ => none)).2) ∧
    voiceMapToCommands [⟨"100", "46", ["0/7"], [], "present"⟩]
      [("0/1", ⟨"no", "no", []⟩)] = .error ("KeyError: " ++ "0/7") :=
  ⟨rfl,
    C8_interface_warns_voice_aborts.1 ⟨"0/9", none, none, none, some true⟩ []
      [⟨"0/2", none, some "auto", none, false⟩] (fun _ => none) rfl,
    C8_interface_warns_voice_aborts.2 "0/7" "100" "46" []
      [("0/1", ⟨"no", "no", []⟩)] rfl rfl (by decide) (by decide)⟩

/-! ## C2 -/

/-- The observed switchport state already realizes the desired membership
mode: exactly the negations of the emission guards in `interfaceCmds`. -/
def portSatisfied (vlan_id : String) (t : MAction) (p : Port) : Bool :=
  match t with
  | .tag => p.tagged_vlans.contains vlan_id
  | .untag => p.untagged_vlans.contains vlan_id && vlan_id == p.pvid_mode
  | .exclude => p.forbidden_vlans.contains vlan_id

/-- The desired interface fields equal the observed snapshot fields. -/
def intfFieldsMatch (w : IntfWant) (o : IntfHave) : Bool :=
  w.mtu == o.mtu && w.description == o.description && w.speed == o.speed &&
    (match w.disable with | some b => b == o.disable | none => true)

/-- The desired VLAN entry is already realized: present, found in the
observed list, and any (truthy) desired name equals the observed name. -/
def vlanMatches (w : VlanWant) (hve : List VlanHave) : Bool :=
  w.state == "present" &&
    (match searchVlanHave w.vlan_id hve with
     | some o =>
       (match w.name with
        | some n => n == "" || n == o.name
        | none => true)
     | none => false)

theorem interfaceCmds_eq_nil {vlan_id : String} {t : MAction} {p : Port}
    (h : portSatisfied vlan_id t p = true) : interfaceCmds vlan_id t p = [] := by
  cases t with
  | tag =>
    simp only [portSatisfied] at h
    have h2 : vlan_id ∈ p.tagged_vlans := by simpa using h
    simp [interfaceCmds, h2]
  | untag =>
    simp only [portSatisfied, Bool.and_eq_true, beq_iff_eq] at h
    obtain ⟨hc, he⟩ := h
    subst he
    have h2 : p.pvid_mode ∈ p.untagged_vlans := by simpa using hc
    simp [interfaceCmds, h2, hc]
  | exclude =>
    simp only [portSatisfied] at h
    have h2 : vlan_id ∈ p.forbidden_vlans := by simpa using h
    simp [interfaceCmds, h2]

theorem addCmds_cons (k' : String) (cs' : List String) (rest : List (String × List String))
    (k : String) (cs : List String) :
    addCmds ((k', cs') :: rest) k cs =
      if k' = k then (k', cs' ++ cs) :: rest else (k', cs') :: addCmds rest k cs := rfl

theorem addCmds_nil_allEmpty {m : List (String × List String)} {k : String}
    (hm : ∀ p ∈ m, p.2 = []) : ∀ p ∈ addCmds m k [], p.2 = [] := by
  induction m with
  | nil =>
    intro p hp
    rcases List.mem_singleton.mp hp with rfl
    rfl
  | cons q rest ih =>
    obtain ⟨qk, qcs⟩ := q
    intro p hp
    by_cases h1 : qk = k
    · rw [addCmds_cons, if_pos h1] at hp
      rcases List.mem_cons.mp hp with rfl | h2
      · have : qcs = [] := hm (qk, qcs) (List.mem_cons_self _ _)
        simp [this]
      · exact hm p (List.mem_cons_of_mem _ h2)
    · rw [addCmds_cons, if_neg h1] at hp
      rcases List.mem_cons.mp hp with rfl | h2
      · exact hm (qk, qcs) (List.mem_cons_self _ _)
      · exact ih (fun q hq => hm q (List.mem_cons_of_mem _ hq)) p h2

theorem foldlM_addCmds_allEmpty (ports : List (String × Port)) (vid : String) :
    ∀ (l : List (String × MAction)),
      (∀ it ∈ l, (match lookupA ports it.1 with
        | some p => portSatisfied vid it.2 p
        | none => false) = true) →
      ∀ acc : List (String × List String), (∀ p ∈ acc, p.2 = []) →
      ∃ acc', (l.foldlM (fun a it =>
          match lookupA ports it.1 with
          | none => Except.error ("KeyError: " ++ it.1)
          | some port => Except.ok (addCmds a it.1 (interfaceCmds vid it.2 port))) acc) =
            .ok acc' ∧ ∀ p ∈ acc', p.2 = []
  | [], _, acc, hacc => ⟨acc, rfl, hacc⟩
  | it :: rest, hs, acc, hacc => by
    have hit := hs it (List.mem_cons_self _ _)
    cases hp : lookupA ports it.1 with
    | none => rw [hp] at hit; exact absurd hit (by simp)
    | some p =>
      rw [hp] at hit
      have hcmds : interfaceCmds vid it.2 p = [] := interfaceCmds_eq_nil hit
      have hstep : ((it :: rest).foldlM (fun a it =>
          match lookupA ports it.1 with
          | none => Except.error ("KeyError: " ++ it.1)
          | some port => Except.ok (addCmds a it.1 (interfaceCmds vid it.2 port))) acc) =
          (rest.foldlM (fun a it =>
            match lookupA ports it.1 with
            | none => Except.error ("KeyError: " ++ it.1)
            | some port => Except.ok (addCmds a it.1 (interfaceCmds vid it.2 port)))
            (addCmds acc it.1 [])) := by
        rw [List.foldlM_cons]
        simp only [hp]
        rw [hcmds]
        rfl
      rw [hstep]
      exact foldlM_addCmds_allEmpty ports vid rest
        (fun q hq => hs q (List.mem_cons_of_mem _ hq))
        (addCmds acc it.1 []) (addCmds_nil_allEmpty hacc)

theorem processWant_allEmpty {ports : List (String × Port)} {w : VlanWant}
    (hsat : w.state = "present" → ∀ it ∈ resolveInterfaces w ports,
      (match lookupA ports it.1 with
       | some p => portSatisfied w.vlan_id it.2 p
       | none => false) = true)
    (acc : List (String × List String)) (hacc : ∀ p ∈ acc, p.2 = []) :
    ∃ acc', processWant ports acc w = .ok acc' ∧ ∀ p ∈ acc', p.2 = [] := by
  unfold processWant
  by_cases hst : w.state = "present"
  · rw [if_neg (fun hne => hne hst)]
    exact foldlM_addCmds_allEmpty ports w.vlan_id (resolveInterfaces w ports)
      (hsat hst) acc hacc
  · rw [if_pos hst]
    exact ⟨acc, rfl, hacc⟩

theorem foldl_emit_empty : ∀ (l : List (String × List String)) (init : List String),
    (∀ p ∈ l, p.2 = []) →
    l.foldl (fun acc p =>
      if p.2.length > 0 then acc ++ ("interface " ++ p.1) :: p.2 else acc) init = init
  | [], _, _ => rfl
  | q :: rest, init, h => by
    rw [List.foldl_cons, if_neg (by rw [h q (List.mem_cons_self _ _)]; simp)]
    exact foldl_emit_empty rest init (fun p hp => h p (List.mem_cons_of_mem _ hp))

theorem emitInterfaces_allEmpty {m : List (String × List String)}
    (hm : ∀ p ∈ m, p.2 = []) : emitInterfaces m = [] := by
  unfold emitInterfaces
  exact foldl_emit_empty (sortByKey m) []
    (fun p hp => hm p ((sortByKey_perm m).mem_iff.mp hp))

theorem foldlM_processWant_allEmpty (ports : List (String × Port)) :
    ∀ (l : List VlanWant),
      (∀ w ∈ l, w.state = "present" → ∀ it ∈ resolveInterfaces w ports,
        (match lookupA ports it.1 with
         | some p => portSatisfied w.vlan_id it.2 p
         | none => false) = true) →
      ∀ acc, (∀ p ∈ acc, p.2 = []) →
      ∃ acc', l.foldlM (processWant ports) acc = .ok acc' ∧ ∀ p ∈ acc', p.2 = []
  | [], _, acc, hacc => ⟨acc, rfl, hacc⟩
  | w :: rest, hs, acc, hacc => by
    obtain ⟨acc1, h1, h2⟩ := processWant_allEmpty (hs w (List.mem_cons_self _ _)) acc hacc
    obtain ⟨acc2, h3, h4⟩ := foldlM_processWant_allEmpty ports rest
      (fun q hq => hs q (List.mem_cons_of_mem _ hq)) acc1 h2
    refine ⟨acc2, ?_, h4⟩
    rw [List.foldlM_cons, h1]
    rw [show (Except.ok acc1 >>= fun b => rest.foldlM (processWant ports) b) =
      rest.foldlM (processWant ports) acc1 from rfl]
    exact h3

theorem intfCmds_match_nil {w : IntfWant} {o : IntfHave} (orc : String → Option String)
    (h : intfFieldsMatch w o = true) : intfCmds w o orc = [] := by
  simp only [intfFieldsMatch, Bool.and_eq_true, beq_iff_eq] at h
  obtain ⟨⟨⟨hmtu, hdesc⟩, hspeed⟩, hdis⟩ := h
  have hsp : (match w.speed with
      | some s => if s ≠ "" && some s ≠ o.speed then ["speed " ++ s] else []
      | none => ([] : List String)) = [] := by
    rw [hspeed]
    cases o.speed with
    | none => rfl
    | some s => simp
  cases hdd : w.disable with
  | none =>
    simp only [intfCmds, hmtu, hdesc, hdd, hsp]
    by_cases ht : truthyO o.mtu = true <;> by_cases hd : truthyO o.description = true <;>
      simp [ht, hd]
  | some b =>
    rw [hdd] at hdis
    have hb : b = o.disable := by simpa using hdis
    simp only [intfCmds, hmtu, hdesc, hdd, hb, hsp]
    by_cases ht : truthyO o.mtu = true <;> by_cases hd : truthyO o.description = true <;>
      simp [ht, hd]

theorem vlanWantCmds_matches_nil {w : VlanWant} {hve : List VlanHave}
    (h : vlanMatches w hve = true) : vlanWantCmds w hve = [] := by
  simp only [vlanMatches, Bool.and_eq_true, beq_iff_eq] at h
  obtain ⟨hst, hrest⟩ := h
  unfold vlanWantCmds
  cases hs : searchVlanHave w.vlan_id hve with
  | none => rw [hs] at hrest; exact absurd hrest (by simp)
  | some o =>
    rw [hs] at hrest
    rw [if_neg (by rw [hst]; decide), if_pos hst]
    cases hn : w.name with
    | none => rfl
    | some n =>
      rw [hn] at hrest
      simp only [Bool.or_eq_true, beq_iff_eq] at hrest
      rcases hrest with h1 | h1
      · simp [h1]
      · simp [h1]

/-- C2: per-domain idempotence. When every desired field already equals
the corresponding observed field — VLAN-interface membership already
realized on every resolved port, interface mtu/description/speed/disable
equal to the snapshot, voice vlan/dscp/lldp already configured, VLAN
existence and name already in the brief — each command-mapping function
returns the empty command sequence. -/
theorem C2_idempotence :
    (∀ (want : List VlanWant) (ports : List (String × Port)),
      (∀ w ∈ want, w.state = "present" →
        ∀ it ∈ resolveInterfaces w ports,
          (match lookupA ports it.1 with
           | some p => portSatisfied w.vlan_id it.2 p
           | none => false) = true) →
      mapInterfacesToCommands want ports = .ok []) ∧
    (∀ (want : List IntfWant) (hve : List IntfHave) (orc : String → Option String),
      (∀ w ∈ want,
        (match searchIntf w.name hve with
         | some o => intfFieldsMatch w o
         | none => false) = true) →
      mapObjToCommands want hve orc = ([], [])) ∧
    (∀ (vid dscp : String) (lldp : List String) (port : VoicePort),
      port.voice_vlan = vid → port.voice_dscp = dscp →
      (∀ t ∈ lldp, port.lldp.contains t = true) →
      mapToCommandsInterface vid dscp lldp "present" port = []) ∧
    (∀ (want : List VlanWant) (hve : List VlanHave),
      (∀ w ∈ want, vlanMatches w hve = true) →
      mapVlansToCommands want hve false = []) := by
  refine ⟨?_, ?_, ?_, ?_⟩
  · intro want ports hsat
    obtain ⟨acc, h1, h2⟩ := foldlM_processWant_allEmpty ports want hsat [] (by simp)
    unfold mapInterfacesToCommands
    rw [h1]
    rw [show (Except.ok acc : Except String (List (String × List String))).map emitInterfaces =
      .ok (emitInterfaces acc) from rfl]
    rw [emitInterfaces_allEmpty h2]
  · intro want hve orc hmatch
    induction want with
    | nil => rfl
    | cons w rest ih =>
      have hw := hmatch w (List.mem_cons_self _ _)
      cases hs : searchIntf w.name hve with
      | none => rw [hs] at hw; exact absurd hw (by simp)
      | some o =>
        rw [hs] at hw
        have hw' : intfFieldsMatch w o = true := hw
        conv_lhs => rw [mapObjToCommands]
        rw [hs]
        simp only [intfCmds_match_nil orc hw', List.length_nil, gt_iff_lt,
          lt_self_iff_false, if_false]
        rw [ih (fun q hq => hmatch q (List.mem_cons_of_mem _ hq))]
  · intro vid dscp lldp port hv hd hl
    unfold mapToCommandsInterface
    rw [if_pos rfl, if_neg (fun hne => hne hv), if_neg (fun hne => hne hd)]
    rw [List.filter_eq_nil_iff.mpr (fun t ht => by simp only [not_not, decide_not]; simpa using hl t ht)]
    rfl
  · intro want hve hmatch
    have hbody : mapVlansBody want hve false = [] := by
      rw [mapVlansBody_eq]
      rw [List.flatten_eq_nil_iff.mpr (fun cs hcs => by
        rcases List.mem_map.mp hcs with ⟨w, hw, rfl⟩
        exact vlanWantCmds_matches_nil (hmatch w hw))]
      simp
    show (if mapVlansBody want hve false = [] then [] else _) = []
    rw [if_pos hbody]

/-- C2, witness: one already-configured input per domain. -/
theorem C2_witness :
    mapInterfacesToCommands
      [⟨"100", none, "present", true, false, false, none, none, none⟩]
      [("0/1", ⟨"1", ["1"], ["100"], []⟩)] = .ok [] ∧
    mapObjToCommands [⟨"0/2", some "auto", some "up", some "9216", some false⟩]
      [⟨"0/2", some "up", some "auto", some "9216", false⟩] (fun _ => none) = ([], []) ∧
    mapToCommandsInterface "100" "46" ["med"] "present"
      ⟨"100", "46", ["transmit", "med"]⟩ = [] ∧
    mapVlansToCommands [⟨"100", some "voice", "present", false, false, false, none, none, none⟩]
      [⟨"100", "voice"⟩] false = [] := by
  refine ⟨?_, ?_, ?_, ?_⟩
  · exact C2_idempotence.1 [⟨"100", none, "present", true, false, false, none, none, none⟩]
      [("0/1", ⟨"1", ["1"], ["100"], []⟩)] (by decide)
  · exact C2_idempotence.2.1 [⟨"0/2", some "auto", some "up", some "9216", some false⟩]
      [⟨"0/2", some "up", some "auto", some "9216", false⟩] (fun _ => none) (by decide)
  · exact C2_idempotence.2.2.1 "100" "46" ["med"] ⟨"100", "46", ["transmit", "med"]⟩
      rfl rfl (by decide)
  · exact C2_idempotence.2.2.2
      [⟨"100", some "voice", "present", false, false, false, none, none, none⟩]
      [⟨"100", "voice"⟩] (by decide)
